import Mathlib

/-!
Shallow embedding of the mail-validator repository.

Sources embedded:
- `src/email_validate.py` (`EmailValidator`): the per-email validation pipeline,
  the domain/email cache, the SMTP deliverability sweep, quality scoring, and
  `clear_cache`.
- `src/bulk_verifier.py` (`BulkEmailVerifier`): input reading/deduplication,
  batched result writing with the permission cycle.
- `src/utils.py` (`EmailUtils.update_files`): the aggregation pass over the
  consolidated list files.

External collaborators (the strict syntax checker, the DNS resolver, the SMTP
client, the disposable-domain lists, clocks) are modelled as parameters of an
`Env` record / plain arguments.  Python strings are Lean `String`s and the
string primitives used by the code (`strip`, `lower`, `split`, `in`) are
embedded as structurally recursive functions over the character list so that
all definitions evaluate inside the kernel.  Python `dict`s keyed by strings
are association lists with first-match lookup and overwrite insertion; Python
`set`s of strings are `Finset String`.  Fallible operations return `Option`,
with `none` standing for a raised-and-swallowed exception.
-/

/-- Whitespace test used by the embedding of Python `str.strip`. -/
def isSpace (c : Char) : Bool := c.isWhitespace

/-- Embedding of Python `str.strip()`: remove leading and trailing whitespace. -/
def pyStrip (s : String) : String :=
  String.mk (((s.data.dropWhile isSpace).reverse.dropWhile isSpace).reverse)

/-- Embedding of Python `str.lower()` (character-wise case folding). -/
def pyLower (s : String) : String := String.mk (s.data.map Char.toLower)

/-- Embedding of the Python membership test `c in s` for a one-character needle. -/
def pyContainsChar (s : String) (c : Char) : Bool := s.data.contains c

/-- Helper for `pySplit`: split a character list at every occurrence of `sep`,
accumulating the current fragment in reverse. -/
def splitCharAux (sep : Char) : List Char → List Char → List (List Char)
  | [], acc => [acc.reverse]
  | c :: cs, acc =>
    if c = sep then acc.reverse :: splitCharAux sep cs []
    else splitCharAux sep cs (c :: acc)

/-- Embedding of Python `s.split(sep)` for a one-character separator: the list
of fragments between occurrences of `sep` (never empty as a list). -/
def pySplit (s : String) (sep : Char) : List String :=
  (splitCharAux sep s.data []).map String.mk

/-- The validator's cache (`EmailValidator.domain_cache`): three string-keyed
boolean maps and the disposable-domain snapshot held as a set. -/
structure Cache where
  mx_records : List (String × Bool)
  disposable : Finset String
  catchall : List (String × Bool)
  deliverable : List (String × Bool)
deriving DecidableEq

/-- Python `dict` lookup on an association list (first match wins). -/
def mapLookup (m : List (String × Bool)) (k : String) : Option Bool :=
  (m.find? (fun p => p.1 == k)).map (fun p => p.2)

/-- Python `dict` assignment `m[k] = v`: overwrite any previous binding. -/
def mapInsert (m : List (String × Bool)) (k : String) (v : Bool) : List (String × Bool) :=
  (k, v) :: m.filter (fun p => p.1 != k)

/-- The external collaborators consumed by the pipeline: the strict syntax
checker, the DNS MX resolver (`none` = resolver exception), the SMTP
mailbox-verification exchange for a given (address, host, port) — `some code`
when a verify response with that reply code is received, `none` when the
attempt fails at transport level and is swallowed — and the timestamp string
used to build the synthetic catchall probe address. -/
structure Env where
  syntaxValid : String → Bool
  resolveMX : String → Option (List String)
  smtpVerify : String → String → Nat → Option Nat
  nowStamp : String

/-- `EmailValidator.__init__`: the cache at construction.  The disposable
snapshot is `set(blocklist) - set(allowlist)`. -/
def initCache (blocklist allowlist : List String) : Cache :=
  { mx_records := []
    disposable := blocklist.toFinset \ allowlist.toFinset
    catchall := []
    deliverable := [] }

/-- `EmailValidator.clear_cache`: empty maps, and the disposable snapshot is
re-created as `set(allowlist)` (the source deliberately differs here from the
construction-time `set(blocklist) - set(allowlist)`). -/
def clear_cache (allowlist : List String) : Cache :=
  { mx_records := []
    disposable := allowlist.toFinset
    catchall := []
    deliverable := [] }

/-- `self.mailer['ports']`: the fixed port sweep order. -/
def mailerPorts : List Nat := [25, 587, 465]

/-- `EmailValidator._check_mx_record`: cached per domain; a resolver exception
yields `False` and is not cached. -/
def check_mx_record (env : Env) (c : Cache) (domain : String) : Bool × Cache :=
  match mapLookup c.mx_records domain with
  | some b => (b, c)
  | none =>
    match env.resolveMX domain with
    | none => (false, c)
    | some recs =>
      let has_mx := !recs.isEmpty
      (has_mx, { c with mx_records := mapInsert c.mx_records domain has_mx })

/-- The success test `code == 250 or code == 251 or code == 252` applied to a
verify reply code. -/
def isSuccessCode (code : Nat) : Bool := code == 250 || code == 251 || code == 252

/-- The inner port loop of `_check_deliverability` on one MX host: the first
port whose attempt reaches a verify response decides the outcome; transport
failures fall through to the next port. -/
def sweepPorts (env : Env) (email host : String) : List Nat → Option Bool
  | [] => none
  | p :: ps =>
    match env.smtpVerify email host p with
    | some code => some (isSuccessCode code)
    | none => sweepPorts env email host ps

/-- The outer host loop of `_check_deliverability`: hosts in resolver order,
each swept over `mailerPorts`; the first responding host:port decides. -/
def sweepHosts (env : Env) (email : String) : List String → Option Bool
  | [] => none
  | h :: hs =>
    match sweepPorts env email h mailerPorts with
    | some b => some b
    | none => sweepHosts env email hs

/-- `EmailValidator._check_deliverability`: per-email cache lookup first; on a
miss, resolve MX hosts and sweep host × port.  When some attempt reaches a
verify response, the boolean outcome (success code or not) is written to the
`deliverable` map and returned; when the resolver fails or every attempt fails
at transport level, `False` is returned without touching the cache. -/
def check_deliverability (env : Env) (c : Cache) (email domain : String) : Bool × Cache :=
  match mapLookup c.deliverable email with
  | some b => (b, c)
  | none =>
    match env.resolveMX domain with
    | none => (false, c)
    | some hosts =>
      match sweepHosts env email hosts with
      | some b => (b, { c with deliverable := mapInsert c.deliverable email b })
      | none => (false, c)

/-- The synthetic probe address `f'test_nonexistent_email_{timestamp}@{domain}'`
built by `_check_catchall`. -/
def syntheticAddr (env : Env) (domain : String) : String :=
  "test_nonexistent_email_" ++ env.nowStamp ++ "@" ++ domain

/-- `EmailValidator._check_catchall`: per-domain cache lookup first; on a miss,
probe the synthetic address through `_check_deliverability` and cache the
outcome in the `catchall` map. -/
def check_catchall (env : Env) (c : Cache) (domain : String) : Bool × Cache :=
  match mapLookup c.catchall domain with
  | some b => (b, c)
  | none =>
    let p := check_deliverability env c (syntheticAddr env domain) domain
    (p.1, { p.2 with catchall := mapInsert p.2.catchall domain p.1 })

/-- One validation result (`validation_time`/`validation_date`, which only
record wall-clock times, are not modelled). -/
structure VResult where
  email : String
  is_valid : Bool
  has_mx_record : Bool
  is_disposable : Bool
  is_catchall : Bool
  is_deliverable : Bool
  quality_score : ℚ
  error : Option String
deriving DecidableEq

/-- Python `round(x, 2)` on the exact rational values produced by the score
computation (all of which have an exact two-decimal form). -/
def round2 (x : ℚ) : ℚ := (round (x * 100) : ℚ) / 100

/-- `EmailValidator._calculate_quality_score`: 0.2 per satisfied signal,
rounded to two decimals. -/
def calculate_quality_score (r : VResult) : ℚ :=
  let s0 : ℚ := 0
  let s1 := if r.is_valid then s0 + 0.2 else s0
  let s2 := if r.has_mx_record then s1 + 0.2 else s1
  let s3 := if !r.is_disposable then s2 + 0.2 else s2
  let s4 := if !r.is_catchall then s3 + 0.2 else s3
  let s5 := if r.is_deliverable then s4 + 0.2 else s4
  round2 s5

/-- The result record as initialised at the top of `EmailValidator.validate`. -/
def emptyResult (email : String) : VResult :=
  { email := email, is_valid := false, has_mx_record := false, is_disposable := false
    is_catchall := false, is_deliverable := false, quality_score := 0, error := none }

/-- The text of the exception raised by `_, domain = email.split('@')` when the
split does not produce exactly two parts. -/
def unpackError : String := "ValueError: unexpected number of values to unpack"

/-- `EmailValidator.validate`: the sequential gate chain.  Syntax failure
finalizes immediately; the domain unpack models the Python tuple assignment
(raising into the per-email `except` when the split is not two parts, which
records the error text and keeps the fields computed so far); MX failure
finalizes early; a positive disposable classification finalizes early; then
catchall and deliverability are probed and the score computed. -/
def validate (env : Env) (c : Cache) (email : String) : VResult × Cache :=
  let r0 := emptyResult email
  if env.syntaxValid email then
    match pySplit email '@' with
    | [_, domain] =>
      let m := check_mx_record env c domain
      if m.1 then
        let dispo := !(decide (domain ∈ m.2.disposable))
        if dispo then
          ({ r0 with is_valid := true, has_mx_record := true, is_disposable := true }, m.2)
        else
          let cc := check_catchall env m.2 domain
          let dl := check_deliverability env cc.2 email domain
          let r1 := { r0 with is_valid := true, has_mx_record := true,
                              is_disposable := false, is_catchall := cc.1,
                              is_deliverable := dl.1 }
          ({ r1 with quality_score := calculate_quality_score r1 }, dl.2)
      else
        ({ r0 with is_valid := true }, m.2)
    | _ => ({ r0 with is_valid := true, error := some unpackError }, c)
  else
    (r0, c)

/-- Sequential model of one bulk batch: each email is validated against the
shared cache in turn and always yields exactly one result (the per-email
boundary converts failures into results rather than aborting the batch). -/
def validate_all (env : Env) (c : Cache) : List String → List VResult × Cache
  | [] => ([], c)
  | e :: es =>
    let p := validate env c e
    let q := validate_all env p.2 es
    (p.1 :: q.1, q.2)

/-- One row of the 10-column output store, all fields as the strings the CSV
layer reads back. -/
structure CsvRow where
  email : String
  is_valid : String
  has_mx_record : String
  is_disposable : String
  is_catchall : String
  is_deliverable : String
  quality_score : String
  validation_time : String
  error : String
  validation_date : String
deriving DecidableEq

/-- The output store: its appended rows and its current permission state
(`writable = true` after a `chmod 0o666`, `false` after `chmod 0o444`).  The
file itself is assumed to exist, as `_ensure_output_file` guarantees at run
start. -/
structure Store where
  rows : List CsvRow
  writable : Bool
deriving DecidableEq

/-- `BulkEmailVerifier._write_results`: chmod the store writable, then open it
for append and build the CSV writer from `results[0].keys()` — which raises
`IndexError` on an empty result list, propagated after logging, leaving the
store writable; on a non-empty list the rows are appended and the store is
chmodded back to read-only.  The first component is the propagated exception
text, if any. -/
def write_results (s : Store) (results : List CsvRow) : Option String × Store :=
  let s1 : Store := { s with writable := true }
  match results with
  | [] => (some "IndexError: list index out of range", s1)
  | _ :: _ => (none, { rows := s1.rows ++ results, writable := false })

/-- The filter of `BulkEmailVerifier._read_input_emails`: keep a line when its
strip is truthy and the raw line contains an `'@'`. -/
def keepLine (l : String) : Bool := (pyStrip l != "") && pyContainsChar l '@'

/-- The normalization applied to each kept line: `line.strip().lower()`. -/
def normalizeLine (l : String) : String := pyLower (pyStrip l)

/-- The normalized, deduplicated input set built by the comprehension in
`_read_input_emails`, before subtracting the persisted set. -/
def inputNormSet (lines : List String) : Finset String :=
  ((lines.filter keepLine).map normalizeLine).toFinset

/-- `BulkEmailVerifier._read_input_emails`: the normalized input set minus the
already-persisted emails (the source returns this set as a list in arbitrary
set order). -/
def read_input_emails (lines : List String) (existing : Finset String) : Finset String :=
  inputNormSet lines \ existing

/-- The scheduled set as the claim words it: the trimmed, lowercased input
lines containing an `'@'`, deduplicated, minus the persisted set. -/
def specScheduled (lines : List String) (persisted : Finset String) : Finset String :=
  ((lines.map normalizeLine).filter (fun e => pyContainsChar e '@')).toFinset \ persisted

/-- The completion loop of `validate_emails`: buffer completed rows, flush a
batch to the store whenever the buffer reaches 100 entries, and flush any
non-empty remainder once at the end.  Returns the rows appended to the store. -/
def flushLoop : List CsvRow → List CsvRow → List CsvRow → List CsvRow
  | buffer, [], store => if buffer.isEmpty then store else store ++ buffer
  | buffer, r :: rest, store =>
    let buffer1 := buffer ++ [r]
    if 100 ≤ buffer1.length then flushLoop [] rest (store ++ buffer1)
    else flushLoop buffer1 rest store

/-- The rows a bulk run appends for a scheduled email list, with `f` mapping
each email to its finalized row (one task per email). -/
def run_appends (emails : List String) (f : String → CsvRow) : List CsvRow :=
  flushLoop [] (emails.map f) []

/-- `domain = email.split('@')[1]` as used by `EmailUtils.update_files`. -/
def domainOf (email : String) : String := (pySplit email '@').getD 1 ""

/-- The domains the aggregation pass classifies as having MX
(`row['has_mx_record'] == 'True'`). -/
def classifyValidDomains (rows : List CsvRow) : Finset String :=
  ((rows.filter (fun r => r.has_mx_record == "True")).map (fun r => domainOf r.email)).toFinset

/-- The domains classified as catchall (`row['is_catchall'] == 'True'`). -/
def classifyCatchall (rows : List CsvRow) : Finset String :=
  ((rows.filter (fun r => r.is_catchall == "True")).map (fun r => domainOf r.email)).toFinset

/-- The domains classified as not-catchall (`row['is_catchall'] == 'False'`). -/
def classifyNotCatchall (rows : List CsvRow) : Finset String :=
  ((rows.filter (fun r => r.is_catchall == "False")).map (fun r => domainOf r.email)).toFinset

/-- The emails classified as verified (`row['is_deliverable'] == 'True'`). -/
def classifyVerified (rows : List CsvRow) : Finset String :=
  ((rows.filter (fun r => r.is_deliverable == "True")).map (fun r => r.email)).toFinset

/-- One consolidated list file pass of `update_files`: strip the prior lines,
union with the store-derived classifications, and rewrite sorted and
deduplicated (the file content is the resulting line list). -/
def update_one (old : List String) (fromStore : Finset String) : List String :=
  Finset.sort (· ≤ ·) ((old.map pyStrip).toFinset ∪ fromStore)

/-- The contents of the four consolidated list files, as line lists. -/
structure ListFiles where
  valid_domains : List String
  catchall_domains : List String
  not_catchall_domains : List String
  verified_emails : List String
deriving DecidableEq

/-- `EmailUtils.update_files`: rebuild each of the four list files as the
sorted deduplicated union of its prior (stripped) lines and the
classifications derived from the full result store. -/
def update_files (fs : ListFiles) (rows : List CsvRow) : ListFiles :=
  { valid_domains := update_one fs.valid_domains (classifyValidDomains rows)
    catchall_domains := update_one fs.catchall_domains (classifyCatchall rows)
    not_catchall_domains := update_one fs.not_catchall_domains (classifyNotCatchall rows)
    verified_emails := update_one fs.verified_emails (classifyVerified rows) }

/-! ### Helper lemmas -/

theorem mapLookup_mapInsert_self (m : List (String × Bool)) (k : String) (v : Bool) :
    mapLookup (mapInsert m k v) k = some v := by
  simp [mapLookup, mapInsert, List.find?]

theorem check_mx_record_disposable (env : Env) (c : Cache) (d : String) :
    ((check_mx_record env c d).2).disposable = c.disposable := by
  unfold check_mx_record
  split
  · rfl
  · split
    · rfl
    · rfl

theorem check_deliverability_disposable (env : Env) (c : Cache) (e d : String) :
    ((check_deliverability env c e d).2).disposable = c.disposable := by
  unfold check_deliverability
  split
  · rfl
  · split
    · rfl
    · split
      · rfl
      · rfl

theorem check_catchall_disposable (env : Env) (c : Cache) (d : String) :
    ((check_catchall env c d).2).disposable = c.disposable := by
  unfold check_catchall
  split
  · rfl
  · exact check_deliverability_disposable env c (syntheticAddr env d) d

/-- A sample store row used by concrete instances. -/
def sampleRow : CsvRow :=
  { email := "e@x.com", is_valid := "True", has_mx_record := "True", is_disposable := "False"
    is_catchall := "False", is_deliverable := "True", quality_score := "1.0"
    validation_time := "0.1", error := "", validation_date := "2026-01-01" }

/-! ### Claim theorems -/

/-- C3 counterexample: appending an empty result list to a read-only store of
one row is not a no-op — it raises (`IndexError`) and flips the store's
permission state to writable. -/
theorem c3_counterexample :
    ¬ ((write_results { rows := [sampleRow], writable := false } []).1 = none
       ∧ (write_results { rows := [sampleRow], writable := false } []).2
           = { rows := [sampleRow], writable := false }) := by
  decide

/-- C3 (amended): appending an empty result list leaves the store's rows
unchanged, but raises an `IndexError` (from `results[0].keys()`) and leaves the
store writable, the read-only chmod never being reached. -/
theorem c3_empty_append_raises (s : Store) :
    (write_results s []).2.rows = s.rows
    ∧ (write_results s []).1 = some "IndexError: list index out of range"
    ∧ (write_results s []).2.writable = true :=
  ⟨rfl, rfl, rfl⟩

/-- C5 counterexample: with `blocklist = ["b.com"]` and `allowlist = ["a.com"]`
the disposable snapshot after `clear_cache` differs from the snapshot at
construction. -/
theorem c5_counterexample :
    (clear_cache ["a.com"]).disposable ≠ (initCache ["b.com"] ["a.com"]).disposable := by
  decide

/-- C5 (amended): `clear_cache` empties all three per-domain/per-email maps but
reinitializes the disposable snapshot to `set(allowlist)`, not to the
construction-time `set(blocklist) - set(allowlist)`. -/
theorem c5_clear_cache_state (allowlist : List String) :
    (clear_cache allowlist).mx_records = []
    ∧ (clear_cache allowlist).catchall = []
    ∧ (clear_cache allowlist).deliverable = []
    ∧ (clear_cache allowlist).disposable = allowlist.toFinset :=
  ⟨rfl, rfl, rfl, rfl⟩

/-- C7: the quality score equals 0.2 times the number of satisfied signals,
rounded to two decimals, and always lies in \x7b0, 0.2, 0.4, 0.6, 0.8, 1\x7d. -/
theorem c7_quality_score_range (r : VResult) :
    calculate_quality_score r
      = round2 (0.2 * ((if r.is_valid then (1 : ℚ) else 0)
          + (if r.has_mx_record then (1 : ℚ) else 0)
          + (if !r.is_disposable then (1 : ℚ) else 0)
          + (if !r.is_catchall then (1 : ℚ) else 0)
          + (if r.is_deliverable then (1 : ℚ) else 0)))
    ∧ calculate_quality_score r ∈ ({0, 0.2, 0.4, 0.6, 0.8, 1} : Set ℚ) := by
  obtain ⟨e, v, m, d, cc, dl, q, err⟩ := r
  simp only [calculate_quality_score, Set.mem_insert_iff, Set.mem_singleton_iff]
  cases v <;> cases m <;> cases d <;> cases cc <;> cases dl <;>
    norm_num [round2, round_eq]

/-- Every batch produces exactly one result per email: the per-email boundary
converts failures into results instead of aborting. -/
theorem validate_all_length (env : Env) : ∀ (es : List String) (c : Cache),
    (validate_all env c es).1.length = es.length := by
  intro es
  induction es with
  | nil => intro c; rfl
  | cons e es ih => intro c; simp [validate_all, ih]

/-- C1: for an email that passes the syntax and MX gates, against a cache whose
disposable snapshot is the construction-time `blocklist - allowlist`,
`is_disposable` is set exactly when the domain is NOT a member of that
snapshot; whenever it is set, the pipeline finalizes immediately with
`is_catchall` and `is_deliverable` still at their default `false`; and the
snapshot in the cache is left unchanged by the whole pipeline. -/
theorem c1_disposable_polarity (env : Env) (bl al : List String) (c : Cache)
    (email l d : String)
    (hdisp : c.disposable = bl.toFinset \ al.toFinset)
    (hs : env.syntaxValid email = true)
    (hd : pySplit email '@' = [l, d])
    (hmx : (check_mx_record env c d).1 = true) :
    ((validate env c email).1.is_disposable = !(decide (d ∈ bl.toFinset \ al.toFinset)))
    ∧ ((validate env c email).1.is_disposable = true →
        (validate env c email).1.is_catchall = false
        ∧ (validate env c email).1.is_deliverable = false)
    ∧ ((validate env c email).2).disposable = bl.toFinset \ al.toFinset := by
  have hpres := check_mx_record_disposable env c d
  simp only [validate, hs, if_true, hd, hmx, hpres, hdisp]
  by_cases hm : d ∈ bl.toFinset \ al.toFinset
  · simp [hm, check_catchall_disposable, check_deliverability_disposable, hpres, hdisp]
  · simp [hm, emptyResult, hpres, hdisp]

/-- C2 (amended): on a deliverable-cache miss, either some host:port attempt
reaches a verify response, in which case the boolean outcome — `true` for a
success code in \x7b250, 251, 252\x7d, `false` for any other reply code — is
both returned and written to the per-email deliverable cache, or the resolver
or every host:port attempt fails at transport level, in which case `false` is
returned and the cache is left completely unchanged.  (Negative verify
responses ARE memoized; only transport-level failures are not.) -/
theorem c2_deliverable_cache_writes (env : Env) (c : Cache) (email domain : String)
    (hmiss : mapLookup c.deliverable email = none) :
    (∃ b hosts, env.resolveMX domain = some hosts
       ∧ sweepHosts env email hosts = some b
       ∧ check_deliverability env c email domain
           = (b, { c with deliverable := mapInsert c.deliverable email b })
       ∧ mapLookup ((check_deliverability env c email domain).2).deliverable email = some b)
    ∨ check_deliverability env c email domain = (false, c) := by
  simp only [check_deliverability, hmiss]
  rcases hr : env.resolveMX domain with _ | hosts
  · simp
  · rcases hw : sweepHosts env email hosts with _ | b
    · simp [hw]
    · left
      exact ⟨b, hosts, rfl, hw, by simp [hw], by simp [hw, mapLookup_mapInsert_self]⟩

/-- C4 (amended): when syntax passes but the MX gate fails, validation halts
at that gate with all downstream boolean fields at default `false` and the
quality score left at its initial `0.0` — the score gate is not evaluated on
this early exit. -/
theorem c4_mx_halt_zero_score (env : Env) (c : Cache) (email l d : String)
    (hs : env.syntaxValid email = true)
    (hd : pySplit email '@' = [l, d])
    (hmx : (check_mx_record env c d).1 = false) :
    (validate env c email).1.is_valid = true
    ∧ (validate env c email).1.has_mx_record = false
    ∧ (validate env c email).1.is_disposable = false
    ∧ (validate env c email).1.is_catchall = false
    ∧ (validate env c email).1.is_deliverable = false
    ∧ (validate env c email).1.quality_score = 0
    ∧ (validate env c email).1.error = none := by
  simp only [validate, hs, if_true, hd, hmx]
  simp [emptyResult]

/-- C6 (amended): an exception inside a single email's pipeline that is not
covered by the syntax/resolution/transport categories (here: the domain-unpack
`ValueError` when the split is not exactly two parts) is caught at the
per-email boundary: the error field carries the exception text, the quality
score stays `0`, every field not yet computed stays default `false` — but the
already-computed `is_valid` retains its value `true` — and every email of a
batch still yields exactly one result. -/
theorem c6_unclassified_exception (env : Env) (c : Cache) (email : String)
    (hs : env.syntaxValid email = true)
    (hsplit : (pySplit email '@').length ≠ 2) :
    (validate env c email).1.error = some unpackError
    ∧ (validate env c email).1.is_valid = true
    ∧ (validate env c email).1.has_mx_record = false
    ∧ (validate env c email).1.is_disposable = false
    ∧ (validate env c email).1.is_catchall = false
    ∧ (validate env c email).1.is_deliverable = false
    ∧ (validate env c email).1.quality_score = 0
    ∧ (∀ (es : List String) (c' : Cache), (validate_all env c' es).1.length = es.length) := by
  simp only [validate, hs, if_true]
  rcases hp : pySplit email '@' with _ | ⟨a, _ | ⟨b, _ | ⟨x, t⟩⟩⟩
  · simp [hp, emptyResult, validate_all_length env]
  · simp [hp, emptyResult, validate_all_length env]
  · exact absurd (by rw [hp]; rfl) hsplit
  · simp [hp, emptyResult, validate_all_length env]

/-- C10: when the catchall check misses both its own cache and the deliverable
cache and its probe of the synthetic address reaches a verify response, an
entry keyed by `test_nonexistent_email_<timestamp>@<domain>` is written into
the per-email deliverable cache — a key that was never an input email. -/
theorem c10_catchall_frame_effect (env : Env) (c : Cache) (domain : String)
    (hosts : List String) (b : Bool)
    (h1 : mapLookup c.catchall domain = none)
    (h2 : mapLookup c.deliverable (syntheticAddr env domain) = none)
    (h3 : env.resolveMX domain = some hosts)
    (h4 : sweepHosts env (syntheticAddr env domain) hosts = some b) :
    mapLookup ((check_catchall env c domain).2).deliverable (syntheticAddr env domain)
      = some b := by
  simp only [check_catchall, h1, check_deliverability, h2, h3, h4]
  simp [mapLookup_mapInsert_self]

/-- A concrete collaborator environment: only `a@x.com` passes syntax, only
`x.com` resolves, and every SMTP verify attempt answers with reply code 550. -/
def envA : Env :=
  { syntaxValid := fun e => e == "a@x.com"
    resolveMX := fun d => if d == "x.com" then some ["mx.x.com"] else none
    smtpVerify := fun _ _ _ => some 550
    nowStamp := "t0" }

/-- A concrete environment whose resolver fails for every domain. -/
def envDown : Env :=
  { syntaxValid := fun e => e == "a@b.com"
    resolveMX := fun _ => none
    smtpVerify := fun _ _ _ => none
    nowStamp := "t0" }

/-- A concrete environment whose syntax checker accepts everything and whose
network is entirely unreachable. -/
def envAll : Env :=
  { syntaxValid := fun _ => true
    resolveMX := fun _ => none
    smtpVerify := fun _ _ _ => none
    nowStamp := "t0" }

/-- A concrete environment where `d.com` resolves and every verify attempt
answers 550 (mailbox rejected). -/
def envNeg : Env :=
  { syntaxValid := fun _ => true
    resolveMX := fun d => if d == "d.com" then some ["m.d.com"] else none
    smtpVerify := fun _ _ _ => some 550
    nowStamp := "t0" }

/-- A concrete environment where `x.com` resolves and every verify attempt
answers 250. -/
def envOk : Env :=
  { syntaxValid := fun _ => true
    resolveMX := fun d => if d == "x.com" then some ["mx.x.com"] else none
    smtpVerify := fun _ _ _ => some 250
    nowStamp := "t0" }

/-- C1 witness: with `blocklist = ["x.com"]`, `allowlist = []`, the domain
`x.com` IS in the snapshot, so `is_disposable` comes out `false`. -/
theorem c1_witness :
    envA.syntaxValid "a@x.com" = true
    ∧ (validate envA (initCache ["x.com"] []) "a@x.com").1.is_disposable = false := by
  have h := c1_disposable_polarity envA ["x.com"] [] (initCache ["x.com"] [])
    "a@x.com" "a" "x.com" rfl (by decide) (by decide) (by decide)
  refine ⟨by decide, ?_⟩
  rw [h.1]
  decide

/-- C2 counterexample: probing `u@d.com` in `envNeg` yields a verify response
with code 550, so the probe's result is `false` — and yet an entry for
`u@d.com` IS written to the deliverable cache, with value `false`.  This
refutes both "if the probe's result is false the cache entry is left
unchanged" and "every value stored in the deliverable cache is true". -/
theorem c2_counterexample :
    (check_deliverability envNeg (initCache [] []) "u@d.com" "d.com").1 = false
    ∧ mapLookup ((check_deliverability envNeg (initCache [] []) "u@d.com" "d.com").2).deliverable
        "u@d.com" = some false := by
  decide

/-- C2 witness: instantiating the amended theorem at `envNeg`. -/
theorem c2_witness :
    mapLookup (initCache [] []).deliverable "u@d.com" = none
    ∧ ((∃ b hosts, envNeg.resolveMX "d.com" = some hosts
         ∧ sweepHosts envNeg "u@d.com" hosts = some b
         ∧ check_deliverability envNeg (initCache [] []) "u@d.com" "d.com"
             = (b, { initCache [] [] with
                      deliverable := mapInsert (initCache [] []).deliverable "u@d.com" b })
         ∧ mapLookup ((check_deliverability envNeg (initCache [] []) "u@d.com" "d.com").2).deliverable
             "u@d.com" = some b)
       ∨ check_deliverability envNeg (initCache [] []) "u@d.com" "d.com"
           = (false, initCache [] [])) :=
  ⟨by decide, c2_deliverable_cache_writes envNeg (initCache [] []) "u@d.com" "d.com" (by decide)⟩

/-- C4 counterexample: `a@b.com` passes syntax in `envDown` but has no
resolvable MX; the finalized quality score is `0`, not a value reflecting the
passed syntax gate — refuting "the score is computed from whatever gates were
actually evaluated, not left at zero". -/
theorem c4_counterexample :
    (validate envDown (initCache [] []) "a@b.com").1.is_valid = true
    ∧ (validate envDown (initCache [] []) "a@b.com").1.has_mx_record = false
    ∧ (validate envDown (initCache [] []) "a@b.com").1.quality_score = 0 := by
  refine ⟨by decide, by decide, ?_⟩
  have h : (validate envDown (initCache [] []) "a@b.com").1.quality_score = (0 : ℚ) := by
    decide
  exact h

/-- C4 witness: instantiating the amended theorem at `envDown`. -/
theorem c4_witness :
    (validate envDown (initCache [] []) "a@b.com").1.is_valid = true
    ∧ (validate envDown (initCache [] []) "a@b.com").1.has_mx_record = false
    ∧ (validate envDown (initCache [] []) "a@b.com").1.is_disposable = false
    ∧ (validate envDown (initCache [] []) "a@b.com").1.is_catchall = false
    ∧ (validate envDown (initCache [] []) "a@b.com").1.is_deliverable = false
    ∧ (validate envDown (initCache [] []) "a@b.com").1.quality_score = 0
    ∧ (validate envDown (initCache [] []) "a@b.com").1.error = none :=
  c4_mx_halt_zero_score envDown (initCache [] []) "a@b.com" "a" "b.com"
    (by decide) (by decide) (by decide)

/-- C6 counterexample: in `envAll` the syntax gate accepts `nodomain`, whose
domain unpack then raises; the exception is caught and the error text recorded,
but `is_valid` is `true`, not at its default `false` — refuting "all five
boolean fields at default false". -/
theorem c6_counterexample :
    (validate envAll (initCache [] []) "nodomain").1.error = some unpackError
    ∧ (validate envAll (initCache [] []) "nodomain").1.is_valid = true := by
  decide

/-- C6 witness: instantiating the amended theorem at `envAll` and `nodomain`. -/
theorem c6_witness :
    (validate envAll (initCache [] []) "nodomain").1.error = some unpackError
    ∧ (validate envAll (initCache [] []) "nodomain").1.is_valid = true
    ∧ (validate envAll (initCache [] []) "nodomain").1.has_mx_record = false
    ∧ (validate envAll (initCache [] []) "nodomain").1.is_disposable = false
    ∧ (validate envAll (initCache [] []) "nodomain").1.is_catchall = false
    ∧ (validate envAll (initCache [] []) "nodomain").1.is_deliverable = false
    ∧ (validate envAll (initCache [] []) "nodomain").1.quality_score = 0
    ∧ (∀ (es : List String) (c' : Cache),
        (validate_all envAll c' es).1.length = es.length) :=
  c6_unclassified_exception envAll (initCache [] []) "nodomain" rfl (by decide)

/-- C10 witness: in `envOk` the catchall probe of `x.com` reaches a 250 verify
response, so the deliverable cache gains an entry keyed by the synthetic
address `test_nonexistent_email_t0@x.com`. -/
theorem c10_witness :
    mapLookup ((check_catchall envOk (initCache [] []) "x.com").2).deliverable
      (syntheticAddr envOk "x.com") = some true :=
  c10_catchall_frame_effect envOk (initCache [] []) "x.com" ["mx.x.com"] true
    (by decide) (by decide) (by decide) (by decide)

/-! ### String-primitive lemmas for the input-normalization claim -/

theorem pyContainsChar_iff (s : String) (c : Char) : pyContainsChar s c = true ↔ c ∈ s.data := by
  simp [pyContainsChar, List.contains]

theorem mem_dropWhile_iff {p : Char → Bool} {c : Char} (hc : p c = false) (l : List Char) :
    c ∈ l.dropWhile p ↔ c ∈ l := by
  constructor
  · intro h
    have h2 := List.mem_append_right (List.takeWhile p l) h
    rwa [List.takeWhile_append_dropWhile] at h2
  · intro h
    rw [← List.takeWhile_append_dropWhile p l] at h
    rcases List.mem_append.1 h with h1 | h2
    · have := List.mem_takeWhile_imp h1
      rw [hc] at this
      cases this
    · exact h2

theorem toLower_at_iff (c : Char) : Char.toLower c = '@' ↔ c = '@' := by
  constructor
  · intro h
    simp only [Char.toLower] at h
    by_cases hc : c.toNat ≥ 65 ∧ c.toNat ≤ 90
    · rw [if_pos hc] at h
      exfalso
      obtain ⟨h1, h2⟩ := hc
      obtain ⟨m, hm⟩ : ∃ m, c.toNat + 32 = m := ⟨_, rfl⟩
      rw [hm] at h
      have hl : 97 ≤ m := by omega
      have hu : m ≤ 122 := by omega
      interval_cases m <;> exact absurd h (by decide)
    · rwa [if_neg hc] at h
  · intro h; rw [h]; decide

theorem pyContainsChar_pyStrip (s : String) :
    pyContainsChar (pyStrip s) '@' = pyContainsChar s '@' := by
  have hws : isSpace '@' = false := by decide
  rcases hb : pyContainsChar s '@' with _ | _
  · rcases hb2 : pyContainsChar (pyStrip s) '@' with _ | _
    · rfl
    · exfalso
      have hm := (pyContainsChar_iff _ _).1 hb2
      simp only [pyStrip, List.mem_reverse] at hm
      rw [mem_dropWhile_iff hws, List.mem_reverse, mem_dropWhile_iff hws] at hm
      have := (pyContainsChar_iff s '@').2 hm
      rw [hb] at this
      cases this
  · have hm := (pyContainsChar_iff s '@').1 hb
    apply (pyContainsChar_iff _ _).2
    simp only [pyStrip, List.mem_reverse]
    rw [mem_dropWhile_iff hws, List.mem_reverse, mem_dropWhile_iff hws]
    exact hm

theorem pyContainsChar_pyLower (s : String) :
    pyContainsChar (pyLower s) '@' = pyContainsChar s '@' := by
  rcases hb : pyContainsChar s '@' with _ | _
  · rcases hb2 : pyContainsChar (pyLower s) '@' with _ | _
    · rfl
    · exfalso
      have hm := (pyContainsChar_iff _ _).1 hb2
      simp only [pyLower, List.mem_map] at hm
      obtain ⟨c, hc, hlc⟩ := hm
      rw [(toLower_at_iff c).1 hlc] at hc
      have := (pyContainsChar_iff s '@').2 hc
      rw [hb] at this
      cases this
  · have hm := (pyContainsChar_iff s '@').1 hb
    apply (pyContainsChar_iff _ _).2
    simp only [pyLower, List.mem_map]
    exact ⟨'@', hm, by decide⟩

theorem strip_ne_of_contains (s : String) (h : pyContainsChar (pyStrip s) '@' = true) :
    (pyStrip s != "") = true := by
  have hm := (pyContainsChar_iff _ _).1 h
  rw [bne_iff_ne]
  intro he
  rw [he] at hm
  cases hm

/-- The line filter of `_read_input_emails` (truthy strip, raw line contains
`'@'`) coincides with testing the normalized line for an `'@'`: stripping and
lowercasing neither create nor destroy an `'@'`, and a line containing one has
a truthy strip. -/
theorem keepLine_eq_contains (l : String) :
    keepLine l = pyContainsChar (normalizeLine l) '@' := by
  unfold keepLine normalizeLine
  rw [pyContainsChar_pyLower]
  rcases hc : pyContainsChar l '@' with _ | _
  · rw [← pyContainsChar_pyStrip] at hc
    rw [hc]
    simp
  · rw [← pyContainsChar_pyStrip] at hc
    rw [hc, strip_ne_of_contains l hc]
    rfl

/-- The source's scheduled set coincides with the claim's description of it. -/
theorem read_input_eq_spec (lines : List String) (existing : Finset String) :
    read_input_emails lines existing = specScheduled lines existing := by
  unfold read_input_emails specScheduled inputNormSet
  congr 1
  rw [List.filter_map]
  exact congrArg (fun l => (List.map normalizeLine l).toFinset)
    (List.filter_congr (fun x _ => keepLine_eq_contains x))

/-- The batching loop appends every completed row exactly once. -/
theorem flushLoop_appends : ∀ (pending buffer store : List CsvRow),
    flushLoop buffer pending store = store ++ buffer ++ pending := by
  intro pending
  induction pending with
  | nil =>
    intro buffer store
    unfold flushLoop
    rcases hb : buffer.isEmpty with _ | _
    · simp [hb]
    · simp [hb, List.isEmpty_iff.1 hb]
  | cons r rest ih =>
    intro buffer store
    unfold flushLoop
    by_cases h : 100 ≤ (buffer ++ [r]).length
    · simp only [h, if_true, ih]
      simp
    · simp only [h, if_false, ih]
      simp

/-- A minimal finalized row for an email, used to instantiate `run_appends`. -/
def rowFor (e : String) : CsvRow :=
  { email := e, is_valid := "", has_mx_record := "", is_disposable := "", is_catchall := ""
    is_deliverable := "", quality_score := "", validation_time := "", error := ""
    validation_date := "" }

/-- C8: the scheduled set equals exactly the trimmed, lowercased input lines
containing an `'@'`, deduplicated, minus the persisted set; and when the
normalized input is a disjoint union of the persisted set and K new emails,
the run schedules exactly the new emails and appends exactly K rows, one per
scheduled email, with no duplicate emails among the appended rows. -/
theorem c8_scheduled_set (lines : List String) (existing newSet : Finset String) (K : ℕ)
    (hunion : inputNormSet lines = existing ∪ newSet)
    (hdisj : existing ∩ newSet = ∅)
    (hK : newSet.card = K)
    (l : List String) (hnd : l.Nodup)
    (hl : l.toFinset = read_input_emails lines existing)
    (f : String → CsvRow) (hf : ∀ e, (f e).email = e) :
    read_input_emails lines existing = specScheduled lines existing
    ∧ read_input_emails lines existing = newSet
    ∧ (run_appends l f).length = K
    ∧ ((run_appends l f).map CsvRow.email).Nodup := by
  have hnew : read_input_emails lines existing = newSet := by
    unfold read_input_emails
    rw [hunion]
    exact Finset.union_sdiff_cancel_left (Finset.disjoint_iff_inter_eq_empty.mpr hdisj)
  have happ : run_appends l f = l.map f := by
    unfold run_appends
    rw [flushLoop_appends]
    simp
  have hlen : (run_appends l f).length = K := by
    rw [happ, List.length_map, ← List.toFinset_card_of_nodup hnd, hl, hnew, hK]
  have hemails : (run_appends l f).map CsvRow.email = l := by
    rw [happ, List.map_map]
    have hfe : CsvRow.email ∘ f = fun e => e := by
      funext e
      exact hf e
    rw [hfe]
    simp
  exact ⟨read_input_eq_spec lines existing, hnew, hlen, by rw [hemails]; exact hnd⟩

/-- C8 witness: four raw lines (one already persisted, one needing trim and
lowercase, one without an `'@'`, one blank) schedule exactly the one new email
`a@x.com` and append exactly one row for it. -/
theorem c8_witness :
    read_input_emails ["b@y.com", " A@X.com", "bad", ""] {"b@y.com"}
        = specScheduled ["b@y.com", " A@X.com", "bad", ""] {"b@y.com"}
    ∧ read_input_emails ["b@y.com", " A@X.com", "bad", ""] {"b@y.com"} = {"a@x.com"}
    ∧ (run_appends ["a@x.com"] rowFor).length = 1
    ∧ ((run_appends ["a@x.com"] rowFor).map CsvRow.email).Nodup :=
  c8_scheduled_set ["b@y.com", " A@X.com", "bad", ""] {"b@y.com"} {"a@x.com"} 1
    (by decide) (by decide) (by decide) ["a@x.com"] (by decide) (by decide)
    rowFor (fun e => rfl)

/-! ### Lemmas for the aggregation claim -/

theorem dropWhile_dropWhile (p : Char → Bool) (l : List Char) :
    List.dropWhile p (List.dropWhile p l) = List.dropWhile p l := by
  induction l with
  | nil => rfl
  | cons a t ih =>
    rcases ha : p a with _ | _
    · rw [List.dropWhile_cons, if_neg (by simp [ha]), List.dropWhile_cons, if_neg (by simp [ha])]
    · rw [List.dropWhile_cons, if_pos (by simp [ha])]
      exact ih

theorem dropWhile_head_false (p : Char → Bool) :
    ∀ (l : List Char) (a : Char) (t : List Char), List.dropWhile p l = a :: t → p a = false := by
  intro l
  induction l with
  | nil => intro a t h; cases h
  | cons x xs ih =>
    intro a t h
    rcases hx : p x with _ | _
    · rw [List.dropWhile_cons, if_neg (by simp [hx])] at h
      cases h
      exact hx
    · rw [List.dropWhile_cons, if_pos (by simp [hx])] at h
      exact ih a t h

/-- A trimmed character list has no leading whitespace left to drop. -/
theorem strip_chars_head (d : List Char) :
    List.dropWhile isSpace (((List.dropWhile isSpace d).reverse.dropWhile isSpace).reverse)
      = ((List.dropWhile isSpace d).reverse.dropWhile isSpace).reverse := by
  rcases he : ((List.dropWhile isSpace d).reverse.dropWhile isSpace).reverse with _ | ⟨b, e'⟩
  · rfl
  · have hu : List.dropWhile isSpace d
        = b :: (e' ++ ((List.dropWhile isSpace d).reverse.takeWhile isSpace).reverse) := by
      have h1 := congrArg List.reverse
        (List.takeWhile_append_dropWhile isSpace (List.dropWhile isSpace d).reverse)
      rw [List.reverse_append, List.reverse_reverse] at h1
      rw [he] at h1
      exact h1.symm
    have hb := dropWhile_head_false isSpace d b _ hu
    rw [List.dropWhile_cons, if_neg (by simp [hb])]

/-- Python `strip` is idempotent. -/
theorem pyStrip_idem (s : String) : pyStrip (pyStrip s) = pyStrip s := by
  unfold pyStrip
  congr 1
  rw [strip_chars_head s.data, List.reverse_reverse,
    dropWhile_dropWhile isSpace (List.dropWhile isSpace s.data).reverse]

/-- No prior entry is removed by a single list-file pass (entries are compared
after the strip the aggregator itself applies on read). -/
theorem update_one_mono (old : List String) (s : Finset String) :
    ∀ x ∈ old, pyStrip x ∈ update_one old s := by
  intro x hx
  unfold update_one
  rw [Finset.mem_sort]
  apply Finset.mem_union_left
  rw [List.mem_toFinset]
  exact List.mem_map.2 ⟨x, hx, rfl⟩

/-- A second list-file pass over the same store-derived classifications writes
a byte-identical file, provided those classifications are strip-fixed (as every
entry the pipeline itself produces is). -/
theorem update_one_idem (old : List String) (s : Finset String)
    (hs : ∀ x ∈ s, pyStrip x = x) :
    update_one (update_one old s) s = update_one old s := by
  unfold update_one
  have hfix : ∀ x ∈ (old.map pyStrip).toFinset ∪ s, pyStrip x = x := by
    intro x hx
    rcases Finset.mem_union.1 hx with h1 | h2
    · rw [List.mem_toFinset] at h1
      obtain ⟨y, hy, hye⟩ := List.mem_map.1 h1
      rw [← hye]
      exact pyStrip_idem y
    · exact hs x h2
  have hmap : (Finset.sort (· ≤ ·) ((old.map pyStrip).toFinset ∪ s)).map pyStrip
      = Finset.sort (· ≤ ·) ((old.map pyStrip).toFinset ∪ s) := by
    calc (Finset.sort (· ≤ ·) ((old.map pyStrip).toFinset ∪ s)).map pyStrip
        = (Finset.sort (· ≤ ·) ((old.map pyStrip).toFinset ∪ s)).map (fun x => x) :=
          List.map_congr_left (fun x hx => hfix x ((Finset.mem_sort (· ≤ ·)).1 hx))
      _ = Finset.sort (· ≤ ·) ((old.map pyStrip).toFinset ∪ s) := by simp
  rw [hmap, Finset.sort_toFinset, Finset.union_eq_left.mpr Finset.subset_union_right]

/-- C9: each consolidated list file is rewritten as the sorted, deduplicated
union of its prior contents and the store-derived classifications; with those
classifications strip-fixed (as all pipeline-produced entries are), a second
aggregation pass over the same store produces byte-identical files, and no
entry present before a pass is ever removed by it. -/
theorem c9_aggregation_idempotent (fs : ListFiles) (rows : List CsvRow)
    (h1 : ∀ x ∈ classifyValidDomains rows, pyStrip x = x)
    (h2 : ∀ x ∈ classifyCatchall rows, pyStrip x = x)
    (h3 : ∀ x ∈ classifyNotCatchall rows, pyStrip x = x)
    (h4 : ∀ x ∈ classifyVerified rows, pyStrip x = x) :
    update_files (update_files fs rows) rows = update_files fs rows
    ∧ (∀ x ∈ fs.valid_domains, pyStrip x ∈ (update_files fs rows).valid_domains)
    ∧ (∀ x ∈ fs.catchall_domains, pyStrip x ∈ (update_files fs rows).catchall_domains)
    ∧ (∀ x ∈ fs.not_catchall_domains, pyStrip x ∈ (update_files fs rows).not_catchall_domains)
    ∧ (∀ x ∈ fs.verified_emails, pyStrip x ∈ (update_files fs rows).verified_emails) := by
  refine ⟨?_, ?_, ?_, ?_, ?_⟩
  · unfold update_files
    simp only
    rw [update_one_idem _ _ h1, update_one_idem _ _ h2, update_one_idem _ _ h3,
      update_one_idem _ _ h4]
  · show ∀ x ∈ fs.valid_domains,
      pyStrip x ∈ update_one fs.valid_domains (classifyValidDomains rows)
    exact update_one_mono _ _
  · show ∀ x ∈ fs.catchall_domains,
      pyStrip x ∈ update_one fs.catchall_domains (classifyCatchall rows)
    exact update_one_mono _ _
  · show ∀ x ∈ fs.not_catchall_domains,
      pyStrip x ∈ update_one fs.not_catchall_domains (classifyNotCatchall rows)
    exact update_one_mono _ _
  · show ∀ x ∈ fs.verified_emails,
      pyStrip x ∈ update_one fs.verified_emails (classifyVerified rows)
    exact update_one_mono _ _

/-- C9 witness: one prior valid-domain line and one store row; the second pass
reproduces the first pass's files exactly and the prior entry survives. -/
theorem c9_witness :
    update_files (update_files ⟨["x.com"], [], [], []⟩ [sampleRow]) [sampleRow]
        = update_files ⟨["x.com"], [], [], []⟩ [sampleRow]
    ∧ (∀ x ∈ (⟨["x.com"], [], [], []⟩ : ListFiles).valid_domains,
        pyStrip x ∈ (update_files ⟨["x.com"], [], [], []⟩ [sampleRow]).valid_domains)
    ∧ (∀ x ∈ (⟨["x.com"], [], [], []⟩ : ListFiles).catchall_domains,
        pyStrip x ∈ (update_files ⟨["x.com"], [], [], []⟩ [sampleRow]).catchall_domains)
    ∧ (∀ x ∈ (⟨["x.com"], [], [], []⟩ : ListFiles).not_catchall_domains,
        pyStrip x ∈ (update_files ⟨["x.com"], [], [], []⟩ [sampleRow]).not_catchall_domains)
    ∧ (∀ x ∈ (⟨["x.com"], [], [], []⟩ : ListFiles).verified_emails,
        pyStrip x ∈ (update_files ⟨["x.com"], [], [], []⟩ [sampleRow]).verified_emails) :=
  c9_aggregation_idempotent ⟨["x.com"], [], [], []⟩ [sampleRow]
    (by decide) (by decide) (by decide) (by decide)
